import Mathlib

/-!
Verification of the flowgen pipeline engine: a shallow embedding of the
Event data model, the shared-bus ordering gate, the JetStream topic
reconciliation algorithm, the versioned cache, and the file/HTTP/NATS
stage loops, together with proofs of the spec's testable properties.

Sources embedded (paths relative to the repository root):
- crates/http/src/processor.rs        (HTTP processor stage loop)
- crates/object-store/src/writer.rs   (object-store writer stage loop)
- crates/file/src/subscriber.rs       (file/CSV source stage loop)
- crates/nats/src/jetstream/publisher.rs  (topic reconciliation)
- crates/nats/src/jetstream/subscriber.rs (NATS source stage loop)
- crates/nats/src/jetstream/message.rs    (message → Event conversion)
- crates/nats/src/cache.rs            (JetStream-backed Cache impl)
- crates/core/src/message.rs          (JSON → record-batch conversion)
-/

namespace Flowgen

/-! ## Event data model

`flowgen_core`'s `Event` type is consumed throughout the crates (its own
source file is not part of the snapshot); the field set below is the one
the call sites read and write (`event.id`, `event.subject`, `event.data`,
`event.current_task_id`) and the one the spec's §3 data model lists.
Payload bytes are modelled as `List Nat`.
-/

/-- Raw payload bytes (Rust `bytes::Bytes` / `Vec<u8>`). -/
abbrev Bytes : Type := List Nat

/-- An Arrow record batch: a schema (column names) plus rows of column
values. The byte-level Arrow encoding is an external codec; the model
keeps the logical content. -/
structure RecordBatch where
  schema : List String
  rows : List (List String)
deriving DecidableEq, Repr

/-- An Avro payload: a schema string plus the schema-validated raw bytes
(`flowgen_core::stream::event::AvroData`). -/
structure AvroData where
  schema : String
  rawBytes : Bytes
deriving DecidableEq, Repr

/-- The tagged payload union `flowgen_core::stream::event::EventData`:
exactly the two variants matched in `object-store/src/writer.rs`. -/
inductive EventData where
  | arrowRecordBatch (batch : RecordBatch)
  | avro (data : AvroData)
deriving DecidableEq, Repr

/-- The in-flight message unit exchanged on the bus (spec §3). -/
structure Event where
  id : Option String := none
  subject : String
  data : EventData
  currentTaskId : Option Nat := none
deriving DecidableEq, Repr

/-- Error of `EventBuilder::build` (spec §4.1: `fails(MissingField)`). -/
inductive BuildError where
  | missingField
deriving DecidableEq, Repr

/-- Modelled from the spec: `flowgen_core::event::EventBuilder` is not in
the source snapshot (only its call sites are). Spec §4.1:
`build(data, subject, task_id) -> Event | fails(MissingField)`, failing
iff `data` or `subject` is unset, `task_id` optional and passed through. -/
structure EventBuilder where
  id? : Option String := none
  data? : Option EventData := none
  subject? : Option String := none
  currentTaskId? : Option Nat := none

/-- Constructor `EventBuilder::new()`. -/
def EventBuilder.new : EventBuilder := {}

/-- Builder setter for the payload. -/
def EventBuilder.data (b : EventBuilder) (d : EventData) : EventBuilder :=
  { b with data? := some d }

/-- Builder setter for the subject. -/
def EventBuilder.subject (b : EventBuilder) (s : String) : EventBuilder :=
  { b with subject? := some s }

/-- Builder setter for the producing task's ordinal. -/
def EventBuilder.currentTaskId (b : EventBuilder) (t : Nat) : EventBuilder :=
  { b with currentTaskId? := some t }

/-- Modelled from the spec: terminal `build` of the Event builder
(spec §4.1) — fully-formed Event or `MissingField`. -/
def EventBuilder.build (b : EventBuilder) : Except BuildError Event :=
  match b.data?, b.subject? with
  | some d, some s =>
    .ok { id := b.id?, subject := s, data := d, currentTaskId := b.currentTaskId? }
  | _, _ => .error .missingField

/-! ## Lexicographic string order

Rust's `Vec::<String>::sort` orders strings lexicographically by byte;
on UTF-8 this agrees with lexicographic comparison of the code points,
modelled here as a structurally recursive Boolean comparison so that the
kernel can evaluate it on concrete subjects.
-/

/-- Lexicographic `≤` on char lists (Rust's `String` ordering). -/
def charListLe : List Char → List Char → Bool
  | [], _ => true
  | _ :: _, [] => false
  | a :: as, b :: bs => if a < b then true else if b < a then false else charListLe as bs

/-- Lexicographic `≤` on strings, as a proposition. -/
def strLe (a b : String) : Prop := charListLe a.data b.data = true

instance : DecidableRel strLe := fun a b =>
  inferInstanceAs (Decidable (charListLe a.data b.data = true))

theorem charListLe_total : ∀ x y : List Char, charListLe x y = true ∨ charListLe y x = true
  | [], _ => Or.inl rfl
  | _ :: _, [] => Or.inr rfl
  | a :: as, b :: bs => by
    rcases lt_trichotomy a b with h | h | h
    · exact Or.inl (by simp [charListLe, h])
    · subst h
      rcases charListLe_total as bs with h' | h'
      · exact Or.inl (by simp [charListLe, h'])
      · exact Or.inr (by simp [charListLe, h'])
    · exact Or.inr (by simp [charListLe, h])

theorem charListLe_trans : ∀ {x y z : List Char},
    charListLe x y = true → charListLe y z = true → charListLe x z = true
  | [], _, _, _, _ => rfl
  | _ :: _, [], _, h, _ => by simp [charListLe] at h
  | _ :: _, _ :: _, [], _, h => by simp [charListLe] at h
  | a :: as, b :: bs, c :: cs, h1, h2 => by
    by_cases hab : a < b
    · by_cases hbc : b < c
      · simp [charListLe, lt_trans hab hbc]
      · by_cases hcb : c < b
        · simp [charListLe, hbc, hcb] at h2
        · have : b = c := le_antisymm (le_of_not_lt hcb) (le_of_not_lt hbc)
          subst this
          simp [charListLe, hab]
    · by_cases hba : b < a
      · simp [charListLe, hab, hba] at h1
      · have : a = b := le_antisymm (le_of_not_lt hba) (le_of_not_lt hab)
        subst this
        simp only [charListLe, if_neg hab, if_neg hba] at h1 ⊢
        by_cases hbc : a < c
        · simp [hbc]
        · by_cases hcb : c < a
          · simp [charListLe, hbc, hcb] at h2
          · simp only [charListLe, if_neg hbc, if_neg hcb] at h2 ⊢
            exact charListLe_trans h1 h2

theorem charListLe_antisymm : ∀ {x y : List Char},
    charListLe x y = true → charListLe y x = true → x = y
  | [], [], _, _ => rfl
  | [], _ :: _, _, h => by simp [charListLe] at h
  | _ :: _, [], h, _ => by simp [charListLe] at h
  | a :: as, b :: bs, h1, h2 => by
    by_cases hab : a < b
    · simp [charListLe, hab, lt_asymm hab] at h2
    · by_cases hba : b < a
      · simp [charListLe, hab, hba] at h1
      · have hb : a = b := le_antisymm (le_of_not_lt hba) (le_of_not_lt hab)
        subst hb
        simp only [charListLe, if_neg hab] at h1 h2
        rw [charListLe_antisymm h1 h2]

instance : IsTotal String strLe := ⟨fun a b => charListLe_total a.data b.data⟩

instance : IsTrans String strLe := ⟨fun _ _ _ h1 h2 => charListLe_trans h1 h2⟩

instance : IsAntisymm String strLe :=
  ⟨fun a b h1 h2 => by
    cases a
    cases b
    exact congrArg String.mk (charListLe_antisymm h1 h2)⟩

/-! ## Sort-then-dedup

`publisher.rs` lines 77–79: `subjects.extend(...); subjects.sort();
subjects.dedup();` — `Vec::sort` produces an ascending permutation and
`Vec::dedup` removes *consecutive* duplicates.
-/

/-- Rust `Vec::dedup`: drop consecutive duplicate elements. -/
def dedupConsec : List String → List String
  | [] => []
  | [a] => [a]
  | a :: b :: rest => if a = b then dedupConsec (b :: rest) else a :: dedupConsec (b :: rest)

/-- Rust `subjects.sort(); subjects.dedup();` — ascending sort followed by
consecutive dedup. (`Vec::sort` is a stable merge sort; any sorted
permutation has the same value, so it is modelled by insertion sort.) -/
def sortDedup (l : List String) : List String := dedupConsec (l.insertionSort strLe)

theorem strLe_refl (a : String) : strLe a a := by
  rcases charListLe_total a.data a.data with h | h <;> exact h

theorem mem_dedupConsec : ∀ {l : List String} {a : String}, a ∈ dedupConsec l ↔ a ∈ l
  | [], _ => Iff.rfl
  | [_], _ => Iff.rfl
  | x :: y :: rest, a => by
    by_cases h : x = y
    · subst h
      rw [dedupConsec, if_pos rfl, mem_dedupConsec (l := x :: rest) (a := a)]
      constructor
      · exact fun hm => List.mem_cons_of_mem _ hm
      · intro hm
        rcases List.mem_cons.mp hm with h' | h'
        · exact h' ▸ List.mem_cons_self _ _
        · exact h'
    · rw [dedupConsec, if_neg h, List.mem_cons, List.mem_cons,
        mem_dedupConsec (l := y :: rest) (a := a)]

theorem dedupConsec_sorted : ∀ {l : List String},
    l.Sorted strLe → (dedupConsec l).Sorted strLe
  | [], _ => List.sorted_nil
  | [a], _ => List.sorted_singleton a
  | x :: y :: rest, h => by
    have htail : (y :: rest).Sorted strLe := h.of_cons
    by_cases hxy : x = y
    · rw [dedupConsec, if_pos hxy]
      exact dedupConsec_sorted htail
    · rw [dedupConsec, if_neg hxy]
      refine List.sorted_cons.mpr ⟨?_, dedupConsec_sorted htail⟩
      intro b hb
      exact List.rel_of_sorted_cons h b (mem_dedupConsec.mp hb)

theorem dedupConsec_nodup : ∀ {l : List String},
    l.Sorted strLe → (dedupConsec l).Nodup
  | [], _ => List.nodup_nil
  | [a], _ => List.nodup_singleton a
  | x :: y :: rest, h => by
    have htail : (y :: rest).Sorted strLe := h.of_cons
    by_cases hxy : x = y
    · rw [dedupConsec, if_pos hxy]
      exact dedupConsec_nodup htail
    · rw [dedupConsec, if_neg hxy]
      refine List.nodup_cons.mpr ⟨?_, dedupConsec_nodup htail⟩
      intro hmem
      have hyx : strLe y x := by
        rcases List.mem_cons.mp (mem_dedupConsec.mp hmem) with h' | h'
        · rw [h']
          exact strLe_refl y
        · exact List.rel_of_sorted_cons htail x h'
      have hxy' : strLe x y := List.rel_of_sorted_cons h y (List.mem_cons_self _ _)
      exact hxy (antisymm hxy' hyx)

theorem dedupConsec_eq_self_of_nodup : ∀ {l : List String}, l.Nodup → dedupConsec l = l
  | [], _ => rfl
  | [_], _ => rfl
  | x :: y :: rest, h => by
    have hxy : x ≠ y := by
      intro hcontra
      exact (List.nodup_cons.mp h).1 (hcontra ▸ List.mem_cons_self _ _)
    rw [dedupConsec, if_neg hxy, dedupConsec_eq_self_of_nodup (List.nodup_cons.mp h).2]

theorem mem_sortDedup {l : List String} {a : String} : a ∈ sortDedup l ↔ a ∈ l := by
  rw [sortDedup, mem_dedupConsec]
  exact (List.perm_insertionSort strLe l).mem_iff

theorem sortDedup_sorted (l : List String) : (sortDedup l).Sorted strLe :=
  dedupConsec_sorted (List.sorted_insertionSort strLe l)

theorem sortDedup_nodup (l : List String) : (sortDedup l).Nodup :=
  dedupConsec_nodup (List.sorted_insertionSort strLe l)

theorem sortDedup_eq_self {l : List String} (hs : l.Sorted strLe) (hn : l.Nodup) :
    sortDedup l = l := by
  rw [sortDedup, List.eq_of_perm_of_sorted (List.perm_insertionSort strLe l) (List.sorted_insertionSort strLe l) hs]
  exact dedupConsec_eq_self_of_nodup hn

theorem sortDedup_congr {l₁ l₂ : List String} (h : ∀ a, a ∈ l₁ ↔ a ∈ l₂) :
    sortDedup l₁ = sortDedup l₂ := by
  refine List.eq_of_perm_of_sorted ?_ (sortDedup_sorted l₁) (sortDedup_sorted l₂)
  refine (List.perm_ext_iff_of_nodup (sortDedup_nodup l₁) (sortDedup_nodup l₂)).mpr ?_
  intro a
  rw [mem_sortDedup, mem_sortDedup]
  exact h a

/-! ## Topic reconciliation (crates/nats/src/jetstream/publisher.rs)

`Builder::build` connects, then creates or updates the JetStream stream:
it builds a `stream_config` from the target configuration, looks the
stream up by name, and on hit issues a single `update_stream` whose
subjects are `remote ++ desired`, sorted, deduplicated; on miss it issues
a single `create_stream` with the desired configuration.
-/

/-- Discard policy `async_nats::jetstream::stream::DiscardPolicy`. -/
inductive DiscardPolicy where
  | old
  | new
deriving DecidableEq, Repr

/-- Retention policy `async_nats::jetstream::stream::RetentionPolicy`. -/
inductive RetentionPolicy where
  | limits
  | interest
  | workQueue
deriving DecidableEq, Repr

/-- The fields of `async_nats::jetstream::stream::Config` that
`publisher.rs` sets (the rest stay `..Default::default()`). `maxAge` is
in seconds (`Duration::new(max_age, 0)`). -/
structure StreamConfig where
  name : String
  description : Option String
  maxMessagesPerSubject : Nat
  subjects : List String
  discard : DiscardPolicy
  retention : RetentionPolicy
  maxAge : Nat
deriving DecidableEq, Repr

/-- Configuration `flowgen_nats::jetstream::config::Target` — the durable-log target
stage configuration. -/
structure TargetConfig where
  credentials : String
  stream : String
  streamDescription : Option String
  subjects : List String
  maxAge : Option Nat
deriving DecidableEq, Repr

/-- The `stream_config` value built in `publisher.rs` lines 47–62:
desired subjects, `DiscardPolicy::Old`, `RetentionPolicy::Limits`,
`max_messages_per_subject: 1`, and `max_age` from the config with
default 86400 seconds (1 day). -/
def streamConfigOf (cfg : TargetConfig) : StreamConfig :=
  { name := cfg.stream
    description := cfg.streamDescription
    maxMessagesPerSubject := 1
    subjects := cfg.subjects
    discard := .old
    retention := .limits
    maxAge := cfg.maxAge.getD 86400 }

/-- The one remote call `Builder::build` issues after the lookup:
either `create_stream` or `update_stream`, each carrying one config. -/
inductive ReconcileAction where
  | create (c : StreamConfig)
  | update (c : StreamConfig)
deriving DecidableEq, Repr

/-- The config carried by a reconcile action. -/
def ReconcileAction.config : ReconcileAction → StreamConfig
  | .create c => c
  | .update c => c

/-- From `publisher.rs` lines 64–93: on `get_stream` hit, update with
`subjects := sortDedup (remote ++ desired)` (lines 68–80: `extend`,
`sort`, `dedup`); on miss, create with the desired config.
`remoteSubjects` is the looked-up stream's current subject list, `none`
when the stream does not exist. -/
def reconcileAction (remoteSubjects : Option (List String)) (cfg : TargetConfig) :
    ReconcileAction :=
  match remoteSubjects with
  | some rs => .update { streamConfigOf cfg with subjects := sortDedup (rs ++ cfg.subjects) }
  | none => .create (streamConfigOf cfg)

/-- The remote topic's subject list after one reconciliation run:
the server stores the subjects of the submitted config (create and
update both overwrite the subject list with the carried one). Modelled
from the spec: the JetStream server itself is an external collaborator
(spec §6, durable-log backend boundary). -/
def remoteAfter (remoteSubjects : Option (List String)) (cfg : TargetConfig) :
    List String :=
  (reconcileAction remoteSubjects cfg).config.subjects

/-! ## HTTP processor stage (crates/http/src/processor.rs)

The loop (lines 66–92): for each received Event `m`, if
`m.current_task_id == Some(self.current_task_id - 1)` it fetches the
configured endpoint, converts the JSON response to a record batch,
builds a new Event tagged with its own task id and sends it; otherwise
the Event causes nothing at all.
-/

/-- From `core/src/message.rs`, `RecordBatchExt for serde_json::Value`: a JSON
object becomes a single-row batch whose columns are the object's keys
and whose values are the stringified field values. The object is a key
→ stringified-value association list. -/
def toRecordbatch (m : List (String × String)) : RecordBatch :=
  { schema := m.map Prod.fst, rows := [m.map Prod.snd] }

/-- One iteration of the HTTP processor loop at task id `t`.
`responseJson` is the (external) endpoint's JSON object response.
`none`: the gate rejected the Event, nothing happened. `some r`: the
stage did its work and `r` is the republished Event (or the builder
error it propagates). The subject literal, typo included, is the
source's. -/
def httpReact (t : Nat) (responseJson : List (String × String)) (e : Event) :
    Option (Except BuildError Event) :=
  if e.currentTaskId = some (t - 1) then
    some ((((EventBuilder.new.data
      (.arrowRecordBatch (toRecordbatch responseJson))).subject
        "http.respone.out").currentTaskId t).build)
  else none

/-! ## Object-store writer stage (crates/object-store/src/writer.rs)

`Writer::run` (lines 123–135): for each received Event, if
`event.current_task_id == Some(self.current_task_id - 1)` it spawns an
`EventHandler` that writes the Event to the object store; otherwise the
Event is dropped. The Writer holds only a `Receiver` (line 97) — its
loop never publishes anything.
-/

/-- The write `EventHandler::handle` performs (lines 43–90). -/
inductive WriteOp where
  | csvFile (filename : String) (batch : RecordBatch)
  | avroObject (path : String) (payload : AvroData)
deriving DecidableEq, Repr

/-- From `EventHandler::handle`: filename is `event.id` or the arrival
timestamp; an Arrow batch is written as a local CSV file, an Avro
payload is re-encoded and put at `{path}/{date}/{filename}.avro`. -/
def handleEvent (basePath date : String) (timestamp : Nat) (e : Event) : WriteOp :=
  let filename := e.id.getD (toString timestamp)
  match e.data with
  | .arrowRecordBatch b => .csvFile filename b
  | .avro d => .avroObject (basePath ++ "/" ++ date ++ "/" ++ filename ++ ".avro") d

/-- One iteration of `Writer::run` at task id `t`: `some op` when the
gate admits the Event and `op` is the spawned write, `none` when the
Event is ignored. -/
def writerReact (t : Nat) (basePath date : String) (timestamp : Nat) (e : Event) :
    Option WriteOp :=
  if e.currentTaskId = some (t - 1) then some (handleEvent basePath date timestamp e)
  else none

/-- The Events the Writer publishes in reaction to a received Event:
none, ever — the Writer owns no `Sender` and its loop contains no send
(writer.rs lines 94–137). -/
def writerEmits (_t : Nat) (_e : Event) : List Event := []

/-! ## File source stage (crates/file/src/subscriber.rs)

`SubscriberBuilder::build` (lines 84–125): open the CSV file, infer the
schema, read it with `with_batch_size(1000)`, and for each record
*batch* build one Event (`data` = the batch, `subject` =
`"{filename}.{timestamp}"`, `current_task_id` = the stage's own id) and
send it.
-/

/-- Batches of at most `n` records, as produced by a reader with
`with_batch_size(n)`. Structural fuel (`fuel ≥ l.length` in use) keeps
the definition kernel-evaluable. -/
def chunksFuel {α : Type} (n : Nat) : Nat → List α → List (List α)
  | _, [] => []
  | 0, _ :: _ => []
  | fuel + 1, x :: xs => (x :: xs).take n :: chunksFuel n fuel ((x :: xs).drop n)

/-- The record batches the CSV reader yields for a record list
(`with_batch_size(1000)`, subscriber.rs line 97). -/
def csvBatches (records : List (List String)) : List (List (List String)) :=
  chunksFuel 1000 records.length records

/-- The Events the file source emits for one CSV file (lines 101–118).
`pathComponents` is the configured path split on `"/"` (Rust
`path.split("/")`, never empty on a real string; the `None` arm mirrors
the loop's `break`). `ts i` is the timestamp observed when the `i`-th
batch is built. One builder call — hence one Event — per record batch. -/
def fileEmits (t : Nat) (pathComponents : List String) (ts : Nat → Nat)
    (schema : List String) (records : List (List String)) :
    List (Except BuildError Event) :=
  match pathComponents.getLast? with
  | none => []
  | some filename =>
    (csvBatches records).mapIdx fun i b =>
      (((EventBuilder.new.data
        (.arrowRecordBatch { schema := schema, rows := b })).subject
          (filename ++ "." ++ toString (ts i))).currentTaskId t).build

/-! ## NATS JetStream source stage

`jetstream/message.rs` `to_event`: build an Event from the wire message
(subject from the message, data decoded from the payload — Avro via
bincode, otherwise Arrow IPC; the byte-level decoding is an external
codec, so the model takes the decoded payload). `jetstream/subscriber.rs`
lines 65–71: the built Event's `current_task_id` field is then assigned
(`e.current_task_id = Some(self.current_task_id)`) before `tx.send(e)`.
-/

/-- Conversion `NatsMessageExt::to_event` — note the builder is given no
`current_task_id`. -/
def natsToEvent (subject : String) (payload : EventData) : Except BuildError Event :=
  ((EventBuilder.new.subject subject).data payload).build

/-- From `subscriber.rs` line 68: field assignment on the already-built
Event, just before the send. -/
def natsSubscriberEmit (t : Nat) (e : Event) : Event :=
  { e with currentTaskId := some t }

/-! ## The ordering-gate arithmetic on `usize`

Both gate sites (`processor.rs` line 68, `writer.rs` line 124) compute
`self.current_task_id - 1` on a `usize` with no guard. Rust semantics:
in a debug build the subtraction panics on overflow; in a release build
it wraps modulo 2⁶⁴.
-/

/-- Number of `usize` values on a 64-bit target. -/
def usizeCard : Nat := 2 ^ 64

/-- The value `t - 1` wrapped modulo 2⁶⁴ (release-build semantics). -/
def wrappingSub1 (t : Nat) : Nat := (t + (usizeCard - 1)) % usizeCard

/-- Gate admission in a debug build: `none` models the overflow panic at
`t = 0`, otherwise the comparison `e.current_task_id == Some(t - 1)`. -/
def gateDebugAdmits (t : Nat) (e : Event) : Option Bool :=
  if t = 0 then none else some (decide (e.currentTaskId = some (t - 1)))

/-- Gate admission in a release build: the comparison against the
wrapped difference. -/
def gateReleaseAdmits (t : Nat) (e : Event) : Bool :=
  decide (e.currentTaskId = some (wrappingSub1 t))

/-! ## Versioned cache (crates/nats/src/cache.rs)

The backing JetStream key/value store is an external collaborator.
Modelled from the spec: `(key, value, revision)` entries, the store
retains the last N revisions per key (bucket created with
`history: 10`, cache.rs line 73) and `get` returns the latest (spec §3,
§6). The `Cache` operations themselves follow cache.rs lines 55–98.
-/

/-- Modelled from the spec: a JetStream KV bucket — per key, the
retained revisions newest-first, capped at `history`. -/
structure KVStore where
  history : Nat
  entries : String → List Bytes

/-- Modelled from the spec: storing a value appends a new latest
revision and drops revisions beyond the bucket's history. -/
def KVStore.put (kv : KVStore) (k : String) (v : Bytes) : KVStore :=
  { kv with entries := fun k' =>
      if k' = k then (v :: kv.entries k).take kv.history else kv.entries k' }

/-- Modelled from the spec: retrieval returns the latest revision,
`none` when the key has none. -/
def KVStore.get (kv : KVStore) (k : String) : Option Bytes :=
  (kv.entries k).head?

/-- The `cache.rs` error variants the modelled operations can return. -/
inductive CacheError where
  | missingRequiredAttribute (attr : String)
  | missingDeltaTable
deriving DecidableEq, Repr

/-- The cache `flowgen_nats::cache::Cache`: a credentials path and, once `init`
has run, the bound KV store (cache.rs lines 49–53). -/
structure Cache where
  credentialsPath : String
  store : Option KVStore := none

/-- From `Cache::init` (cache.rs lines 58–82): bind the existing bucket, or
create it with `history: 10` if absent, and store the handle. `server`
is the external JetStream server's bucket map. -/
def Cache.init (c : Cache) (server : String → Option KVStore) (bucket : String) : Cache :=
  { c with store := some (match server bucket with
      | some kv => kv
      | none => { history := 10, entries := fun _ => [] }) }

/-- From `Cache::put` (cache.rs lines 83–88): `if let Some(store) = ...`
writes through; with no store bound it does nothing — and returns
`Ok(())` either way. -/
def Cache.put (c : Cache) (k : String) (v : Bytes) : Except CacheError Cache :=
  match c.store with
  | some kv => .ok { c with store := some (kv.put k v) }
  | none => .ok c

/-- From `Cache::get` (cache.rs lines 89–97): no store bound ⇒
`Err(MissingDeltaTable)`; key absent ⇒ the same error (the `ok_or` on
the entry `Option`); otherwise the latest bytes. -/
def Cache.get (c : Cache) (k : String) : Except CacheError Bytes :=
  match c.store with
  | none => .error .missingDeltaTable
  | some kv =>
    match kv.get k with
    | none => .error .missingDeltaTable
    | some v => .ok v

/-- A sequence of `put` calls, left to right. -/
def Cache.applyPuts (c : Cache) : List (String × Bytes) → Except CacheError Cache
  | [] => .ok c
  | (k, v) :: rest => (c.put k v).bind fun c' => c'.applyPuts rest

/-! ## Concrete fixtures used by witnesses and counterexamples -/

/-- A sample Avro payload. -/
def evPayload : EventData := .avro { schema := "sch", rawBytes := [0] }

/-- A sample Event as emitted by a source stage (task id 0). -/
def evGate : Event :=
  { id := some "f", subject := "in", data := evPayload, currentTaskId := some 0 }

/-- A durable-log target configuration with desired subjects `["x"]`. -/
def cfgX : TargetConfig :=
  { credentials := "c", stream := "s", streamDescription := none
    subjects := ["x"], maxAge := none }

/-- A durable-log target configuration with desired subjects `["z"]`. -/
def cfgZ : TargetConfig :=
  { credentials := "c", stream := "s", streamDescription := none
    subjects := ["z"], maxAge := none }

/-! ## Claims -/

/-- C7: for all inputs, the Event builder's `build` succeeds iff both
`data` and `subject` are set; `task_id` is optional and the
`current_task_id` given to the builder passes through unchanged into the
built Event. -/
theorem c7_event_builder (b : EventBuilder) :
    ((∃ e, b.build = Except.ok e) ↔ (b.data?.isSome ∧ b.subject?.isSome))
    ∧ (∀ e, b.build = Except.ok e → e.currentTaskId = b.currentTaskId?) := by
  constructor
  · constructor
    · rintro ⟨e, he⟩
      cases hd : b.data? <;> cases hs : b.subject? <;>
        simp_all [EventBuilder.build]
    · rintro ⟨hd, hs⟩
      rcases Option.isSome_iff_exists.mp hd with ⟨d, hd'⟩
      rcases Option.isSome_iff_exists.mp hs with ⟨s, hs'⟩
      exact ⟨{ id := b.id?, subject := s, data := d, currentTaskId := b.currentTaskId? },
        by simp [EventBuilder.build, hd', hs']⟩
  · intro e he
    cases hd : b.data? <;> cases hs : b.subject? <;>
      simp_all [EventBuilder.build]
    rw [← he]

/-- Witness for C7: a builder with data, subject and task id 3 set
builds successfully, and the built Event carries task id 3. -/
theorem c7_witness :
    (∃ e, (((EventBuilder.new.data evPayload).subject "s").currentTaskId 3).build
        = Except.ok e)
    ∧ ({ id := none, subject := "s", data := evPayload,
          currentTaskId := some 3 } : Event).currentTaskId = some 3 :=
  ⟨(c7_event_builder
      (((EventBuilder.new.data evPayload).subject "s").currentTaskId 3)).1.mpr
      ⟨rfl, rfl⟩,
    (c7_event_builder
      (((EventBuilder.new.data evPayload).subject "s").currentTaskId 3)).2 _ rfl ▸ rfl⟩

/-- C8: every config that reconciliation submits — on the create branch
and on the update branch alike — carries `max_messages_per_subject = 1`,
so the remote topic retains at most one message per subject. -/
theorem c8_max_messages_per_subject (r : Option (List String)) (cfg : TargetConfig) :
    (reconcileAction r cfg).config.maxMessagesPerSubject = 1 := by
  cases r <;> rfl

/-- C10: with no store bound (init never ran), `put` reports success
while storing nothing, and a later `get` on the same cache value fails. -/
theorem c10_put_without_init (c : Cache) (k : String) (v : Bytes)
    (hs : c.store = none) :
    c.put k v = Except.ok c ∧ c.get k = Except.error CacheError.missingDeltaTable := by
  rw [Cache.put, Cache.get, hs]
  exact ⟨rfl, rfl⟩

/-- Witness for C10: an un-initialized cache accepts a put and then
fails the get for the same key. -/
theorem c10_witness :
    ({ credentialsPath := "p" } : Cache).put "k" [1]
        = Except.ok { credentialsPath := "p" }
    ∧ ({ credentialsPath := "p" } : Cache).get "k"
        = Except.error CacheError.missingDeltaTable :=
  c10_put_without_init { credentialsPath := "p" } "k" [1] rfl

/-- C9: the ordering-gate admission check computes
`current_task_id - 1` on `usize` without a guard, so it is well defined
only for task ids ≥ 1: at task id 0 a debug build panics (modelled as
`none`) on the first received Event, while a release build wraps to
2⁶⁴ − 1, and for 1 ≤ t ≤ 2⁶⁴ both builds compare against `t - 1`. -/
theorem c9_gate_underflow :
    (∀ e, gateDebugAdmits 0 e = none)
    ∧ wrappingSub1 0 = usizeCard - 1
    ∧ (∀ e, gateReleaseAdmits 0 e = true ↔ e.currentTaskId = some (usizeCard - 1))
    ∧ (∀ t e, 1 ≤ t →
        gateDebugAdmits t e = some (decide (e.currentTaskId = some (t - 1))))
    ∧ (∀ t e, 1 ≤ t → t ≤ usizeCard →
        (gateReleaseAdmits t e = true ↔ e.currentTaskId = some (t - 1))) := by
  refine ⟨fun e => rfl, rfl, fun e => ?_, fun t e ht => ?_, fun t e ht ht' => ?_⟩
  · simp [gateReleaseAdmits, wrappingSub1, usizeCard]
  · rw [gateDebugAdmits, if_neg (by omega)]
  · have hw : wrappingSub1 t = t - 1 := by
      have h1 : t + (usizeCard - 1) = (t - 1) + usizeCard := by
        have : 1 ≤ usizeCard := Nat.one_le_two_pow
        omega
      rw [wrappingSub1, h1, Nat.add_mod_right, Nat.mod_eq_of_lt]
      have : 1 ≤ usizeCard := Nat.one_le_two_pow
      omega
    simp [gateReleaseAdmits, hw]

/-- Witness for C9: at task id 0 the debug gate panics on the source's
first Event, and at task id 2 both builds compare against task id 1. -/
theorem c9_witness :
    gateDebugAdmits 0 evGate = none
    ∧ gateDebugAdmits 2 evGate = some (decide (evGate.currentTaskId = some 1))
    ∧ (gateReleaseAdmits 2 evGate = true ↔ evGate.currentTaskId = some 1) :=
  ⟨c9_gate_underflow.1 evGate,
    c9_gate_underflow.2.2.2.1 2 evGate (by decide),
    c9_gate_underflow.2.2.2.2 2 evGate (by decide) (by norm_num [usizeCard])⟩

/-- C2: when the remote topic exists, reconciliation issues exactly one
update; its subject list is the sorted, deduplicated union of the remote
subjects and the desired subjects, and its retention, discard and
max-age are the desired values (Limits, Old, config max-age or the
1-day default), overwriting the remote ones. -/
theorem c2_update_merges_subjects (rs : List String) (cfg : TargetConfig) :
    ∃ u, reconcileAction (some rs) cfg = ReconcileAction.update u
      ∧ u.subjects.Sorted strLe
      ∧ u.subjects.Nodup
      ∧ (∀ s, s ∈ u.subjects ↔ s ∈ rs ∨ s ∈ cfg.subjects)
      ∧ u.retention = RetentionPolicy.limits
      ∧ u.discard = DiscardPolicy.old
      ∧ u.maxAge = cfg.maxAge.getD 86400 := by
  refine ⟨_, rfl, sortDedup_sorted _, sortDedup_nodup _, fun s => ?_, rfl, rfl, rfl⟩
  rw [mem_sortDedup, List.mem_append]

/-- C4 counterexample: the NATS JetStream subscriber builds an Event
from the wire message and then mutates its `current_task_id` field
before publishing — so an Event is not immutable after construction. -/
theorem c4_counterexample :
    ∃ e : Event, natsToEvent "s" evPayload = Except.ok e
      ∧ natsSubscriberEmit 1 e ≠ e := by
  refine ⟨_, rfl, ?_⟩
  decide

/-- C4 as amended: the producing task sets `current_task_id` exactly
once, at emission — the Event leaves the builder with
`current_task_id = None`, the subscriber's assignment sets it to the
task's own id, and no other field changes — but in the NATS subscriber
this happens by mutating the already-built Event, so the Event is not
immutable between construction and emission. -/
theorem c4_task_id_set_once_at_emission (subject : String) (payload : EventData)
    (t : Nat) :
    ∃ e, natsToEvent subject payload = Except.ok e
      ∧ e.currentTaskId = none
      ∧ (natsSubscriberEmit t e).currentTaskId = some t
      ∧ (natsSubscriberEmit t e).subject = e.subject
      ∧ (natsSubscriberEmit t e).data = e.data
      ∧ (natsSubscriberEmit t e).id = e.id :=
  ⟨_, rfl, rfl, rfl, rfl, rfl, rfl⟩

/-- C1 counterexample: at task id 1, an Event tagged 0 passes the
object-store writer's gate and the writer performs its work, but it
republishes nothing — "processes iff gate" holds, "processes and
republishes a new Event tagged t iff gate" does not. -/
theorem c1_counterexample :
    ¬ (((writerReact 1 "p" "d" 5 evGate).isSome
          ∧ ∃ out, out ∈ writerEmits 1 evGate ∧ out.currentTaskId = some 1)
        ↔ evGate.currentTaskId = some 0) := by
  decide

/-- C1 as amended: for every stage with task id t ≥ 1 and every Event e,
the stage performs its work iff `e.current_task_id == Some(t - 1)`, and
an Event with any other id causes no side effect and no republish; on
acceptance the HTTP processor republishes a new Event tagged t, while
the object-store writer performs its write without republishing. -/
theorem c1_ordering_gate (t : Nat) (resp : List (String × String))
    (basePath date : String) (timestamp : Nat) (e : Event) (_ht : 1 ≤ t) :
    ((∃ out, httpReact t resp e = some (Except.ok out))
        ↔ e.currentTaskId = some (t - 1))
    ∧ (∀ out, httpReact t resp e = some (Except.ok out)
        → out.currentTaskId = some t)
    ∧ ((writerReact t basePath date timestamp e).isSome
        ↔ e.currentTaskId = some (t - 1))
    ∧ writerEmits t e = [] := by
  refine ⟨?_, ?_, ?_, rfl⟩
  · by_cases h : e.currentTaskId = some (t - 1) <;>
      simp [httpReact, h, EventBuilder.build, EventBuilder.new, EventBuilder.data,
        EventBuilder.subject, EventBuilder.currentTaskId]
  · intro out hout
    by_cases h : e.currentTaskId = some (t - 1) <;>
      simp [httpReact, h, EventBuilder.build, EventBuilder.new, EventBuilder.data,
        EventBuilder.subject, EventBuilder.currentTaskId] at hout
    rw [← hout]
  · by_cases h : e.currentTaskId = some (t - 1) <;> simp [writerReact, h]

/-- Witness for C1: at task id 1, a source Event tagged 0 is admitted
and republished tagged 1 by the HTTP processor, admitted by the writer,
and the writer republishes nothing. -/
theorem c1_witness :
    (∃ out, httpReact 1 [("k", "v")] evGate = some (Except.ok out))
    ∧ (writerReact 1 "p" "d" 5 evGate).isSome
    ∧ writerEmits 1 evGate = [] :=
  ⟨(c1_ordering_gate 1 [("k", "v")] "p" "d" 5 evGate (by decide)).1.mpr (by decide),
    (c1_ordering_gate 1 [("k", "v")] "p" "d" 5 evGate (by decide)).2.2.1.mpr (by decide),
    (c1_ordering_gate 1 [("k", "v")] "p" "d" 5 evGate (by decide)).2.2.2⟩

/-- Unfolding: reconciling against an existing topic merges the subject
lists. -/
theorem remoteAfter_some (X : List String) (cfg : TargetConfig) :
    remoteAfter (some X) cfg = sortDedup (X ++ cfg.subjects) := rfl

/-- Unfolding: reconciling against an absent topic creates it with the
desired subjects. -/
theorem remoteAfter_none (cfg : TargetConfig) :
    remoteAfter none cfg = cfg.subjects := rfl

/-- C3: topic reconciliation is idempotent and monotonic in subjects —
on an existing topic a second run with the same desired set leaves the
remote subject list literally unchanged; from any remote state the
remote subject set is stable under repetition, a run with desired `A`
followed by one with `B` leaves the remote set ⊇ A ∪ B, and no run
removes a subject that was present before it. -/
theorem c3_reconciliation_idempotent_monotone (r : Option (List String))
    (S : List String) (cfgD cfgA cfgB : TargetConfig) :
    remoteAfter (some (remoteAfter (some S) cfgD)) cfgD = remoteAfter (some S) cfgD
    ∧ (∀ s, s ∈ remoteAfter (some (remoteAfter r cfgD)) cfgD
        ↔ s ∈ remoteAfter r cfgD)
    ∧ (∀ s, s ∈ cfgA.subjects ∨ s ∈ cfgB.subjects →
        s ∈ remoteAfter (some (remoteAfter r cfgA)) cfgB)
    ∧ (∀ s, s ∈ S → s ∈ remoteAfter (some S) cfgD) := by
  have hstep : ∀ (X : List String) (cfg : TargetConfig) (s : String),
      s ∈ remoteAfter (some X) cfg ↔ s ∈ X ∨ s ∈ cfg.subjects := by
    intro X cfg s
    rw [remoteAfter_some, mem_sortDedup, List.mem_append]
  refine ⟨?_, ?_, ?_, ?_⟩
  · rw [remoteAfter_some, remoteAfter_some]
    refine sortDedup_congr fun a => ?_
    rw [List.mem_append, mem_sortDedup, List.mem_append]
    tauto
  · intro s
    cases r with
    | none =>
      simp only [hstep, remoteAfter_none]
      tauto
    | some S' =>
      simp only [hstep]
      tauto
  · intro s hs
    cases r with
    | none =>
      simp only [hstep, remoteAfter_none]
      tauto
    | some S' =>
      simp only [hstep]
      tauto
  · intro s hs
    simp only [hstep]
    tauto

/-- Witness for C3: starting from an absent topic, a run desiring
`["x"]` followed by a run desiring `["z"]` leaves both subjects in the
remote set. -/
theorem c3_witness :
    "x" ∈ remoteAfter (some (remoteAfter none cfgX)) cfgZ
    ∧ "z" ∈ remoteAfter (some (remoteAfter none cfgX)) cfgZ :=
  ⟨(c3_reconciliation_idempotent_monotone none [] cfgX cfgX cfgZ).2.2.1 "x"
      (Or.inl (by decide)),
    (c3_reconciliation_idempotent_monotone none [] cfgX cfgX cfgZ).2.2.1 "z"
      (Or.inr (by decide))⟩

/-- Concatenating the batches restores the record list. -/
theorem chunksFuel_flatten {α : Type} (n : Nat) (hn : 1 ≤ n) :
    ∀ (fuel : Nat) (l : List α), l.length ≤ fuel → (chunksFuel n fuel l).flatten = l
  | fuel, [], _ => by cases fuel <;> rfl
  | 0, _ :: _, h => absurd h (by simp)
  | fuel + 1, x :: xs, h => by
    have hd : ((x :: xs).drop n).length ≤ fuel := by
      rw [List.length_drop, List.length_cons]
      rw [List.length_cons] at h
      omega
    rw [chunksFuel, List.flatten_cons, chunksFuel_flatten n hn fuel _ hd,
      List.take_append_drop]

/-- Every batch is nonempty and holds at most `n` records. -/
theorem chunksFuel_sizes {α : Type} (n : Nat) (hn : 1 ≤ n) :
    ∀ (fuel : Nat) (l : List α) (c : List α),
      c ∈ chunksFuel n fuel l → c ≠ [] ∧ c.length ≤ n
  | fuel, [], c, hc => by cases fuel <;> simp [chunksFuel] at hc
  | 0, _ :: _, c, hc => by simp [chunksFuel] at hc
  | fuel + 1, x :: xs, c, hc => by
    rw [chunksFuel] at hc
    rcases List.mem_cons.mp hc with h | h
    · subst h
      constructor
      · intro hnil
        have hlen := congrArg List.length hnil
        rw [List.length_take, List.length_cons] at hlen
        simp only [List.length_nil] at hlen
        omega
      · rw [List.length_take]
        exact min_le_left _ _
    · exact chunksFuel_sizes n hn fuel _ c h

/-- C5 counterexample: a CSV file with two records produces one
published Event (both records travel in a single batch), not one Event
per record. -/
theorem c5_counterexample :
    (fileEmits 0 ["a.csv"] (fun _ => 5) ["c"] [["1"], ["2"]]).length = 1
    ∧ (fileEmits 0 ["a.csv"] (fun _ => 5) ["c"] [["1"], ["2"]]).length
        ≠ ([["1"], ["2"]] : List (List String)).length := by
  constructor
  · rfl
  · intro h
    rw [show (fileEmits 0 ["a.csv"] (fun _ => 5) ["c"] [["1"], ["2"]]).length = 1
      from rfl] at h
    cases h

/-- C5 as amended: running the 2-stage pipeline publishes exactly one
Event per CSV record *batch* — the batches partition the source records
in order, each nonempty with at most 1000 records — every published
Event is tagged `current_task_id = 0` (the source's id) at emission, and
a freshly created remote topic ends with exactly the configured subject
set. -/
theorem c5_file_source_per_batch (t : Nat) (path : List String) (f : String)
    (ts : Nat → Nat) (schema : List String) (records : List (List String))
    (cfg : TargetConfig) (hf : path.getLast? = some f) :
    (fileEmits t path ts schema records).length = (csvBatches records).length
    ∧ (csvBatches records).flatten = records
    ∧ (∀ c ∈ csvBatches records, c ≠ [] ∧ c.length ≤ 1000)
    ∧ (∀ x ∈ fileEmits t path ts schema records,
        ∃ e, x = Except.ok e ∧ e.currentTaskId = some t)
    ∧ remoteAfter none cfg = cfg.subjects := by
  refine ⟨?_, ?_, ?_, ?_, rfl⟩
  · simp [fileEmits, hf]
  · exact chunksFuel_flatten 1000 (by omega) records.length records le_rfl
  · exact fun c hc => chunksFuel_sizes 1000 (by omega) records.length records c hc
  · intro x hx
    simp only [fileEmits, hf] at hx
    rw [List.mapIdx_eq_enum_map] at hx
    rcases List.mem_map.mp hx with ⟨⟨i, b⟩, _, hxeq⟩
    exact ⟨_, hxeq.symm, rfl⟩

/-- Witness for C5 (amended): one single-record CSV yields one Event,
and creating the topic fresh leaves exactly the configured subjects. -/
theorem c5_witness :
    (fileEmits 0 ["a.csv"] (fun _ => 5) ["c"] [["1"]]).length
        = (csvBatches [["1"]]).length
    ∧ remoteAfter none cfgX = cfgX.subjects :=
  ⟨(c5_file_source_per_batch 0 ["a.csv"] "a.csv" (fun _ => 5) ["c"] [["1"]] cfgX
      rfl).1,
    (c5_file_source_per_batch 0 ["a.csv"] "a.csv" (fun _ => 5) ["c"] [["1"]] cfgX
      rfl).2.2.2.2⟩

/-- Writing under a different key leaves a key's revisions untouched. -/
theorem KVStore.put_entries_ne (kv : KVStore) (k k' : String) (v : Bytes)
    (hne : k' ≠ k) : (kv.put k' v).entries k = kv.entries k := by
  rw [KVStore.put]
  exact if_neg fun h => hne h.symm

/-- A sequence of puts to other keys succeeds and leaves the observed
key's revisions untouched. -/
theorem applyPuts_other_keys :
    ∀ (ps : List (String × Bytes)) (c : Cache) (kv : KVStore) (k : String),
      c.store = some kv → (∀ p ∈ ps, p.1 ≠ k) →
      ∃ c' kv', c.applyPuts ps = Except.ok c' ∧ c'.store = some kv'
        ∧ kv'.entries k = kv.entries k
  | [], c, kv, k, hs, _ => ⟨c, kv, rfl, hs, rfl⟩
  | (k', v') :: rest, c, kv, k, hs, hps => by
    have hne2 : k' ≠ k := hps _ (List.mem_cons_self _ _)
    have hput : c.put k' v' = Except.ok { c with store := some (kv.put k' v') } := by
      rw [Cache.put, hs]
    rcases applyPuts_other_keys rest { c with store := some (kv.put k' v') }
        (kv.put k' v') k rfl (fun p hp => hps p (List.mem_cons_of_mem _ hp)) with
      ⟨c', kv', h1, h2, h3⟩
    refine ⟨c', kv', ?_, h2, ?_⟩
    · rw [Cache.applyPuts, hput]
      exact h1
    · rw [h3]
      exact KVStore.put_entries_ne kv k k' v' hne2

/-- C6: on an initialized cache, `get` after `put (key, value)` — with
any intervening puts to other keys — returns `value`; `get` on a key
that was never put fails with the cache's key-absent error. -/
theorem c6_cache_round_trip (c : Cache) (kv : KVStore) (k : String) (v : Bytes)
    (ps : List (String × Bytes)) (hinit : c.store = some kv)
    (hhist : 1 ≤ kv.history) (hps : ∀ p ∈ ps, p.1 ≠ k) :
    (∃ c', ((c.put k v).bind fun c1 => c1.applyPuts ps) = Except.ok c'
        ∧ c'.get k = Except.ok v)
    ∧ (∀ k0, kv.entries k0 = [] →
        c.get k0 = Except.error CacheError.missingDeltaTable) := by
  constructor
  · have hput : c.put k v = Except.ok { c with store := some (kv.put k v) } := by
      rw [Cache.put, hinit]
    rcases applyPuts_other_keys ps { c with store := some (kv.put k v) }
        (kv.put k v) k rfl hps with ⟨c', kv', h1, h2, h3⟩
    refine ⟨c', ?_, ?_⟩
    · rw [hput]
      exact h1
    · have hentry : kv'.entries k = (v :: kv.entries k).take kv.history := by
        rw [h3]
        simp [KVStore.put]
      have hget : kv'.get k = some v := by
        rcases Nat.exists_eq_add_of_le hhist with ⟨m, hm⟩
        rw [KVStore.get, hentry, hm, Nat.add_comm 1 m, List.take_succ_cons]
        rfl
      simp only [Cache.get, h2, hget]
  · intro k0 h0
    simp only [Cache.get, hinit, KVStore.get, h0]
    rfl

/-- A freshly created, empty bucket with `history: 10`. -/
def kvW : KVStore := { history := 10, entries := fun _ => [] }

/-- A cache bound to the fresh bucket `kvW`. -/
def cacheW : Cache := { credentialsPath := "p", store := some kvW }

/-- Witness for C6: on a freshly created bucket (history 10), putting
`[1]` at `"a"`, then `[2]` at `"b"`, then getting `"a"` returns `[1]`;
getting the never-put key `"n"` fails. -/
theorem c6_witness :
    (∃ c', ((cacheW.put "a" [1]).bind fun c1 => c1.applyPuts [("b", [2])])
          = Except.ok c'
        ∧ c'.get "a" = Except.ok [1])
    ∧ cacheW.get "n" = Except.error CacheError.missingDeltaTable := by
  have h := c6_cache_round_trip cacheW kvW "a" [1] [("b", [2])] rfl
    (by decide) (by decide)
  exact ⟨h.1, h.2 "n" rfl⟩

end Flowgen
